import Mathlib

/-!
Verification development for the Crash2care smart-ambulance backends.

This file gives a shallow embedding of the per-intersection priority-queue
engine of `backend_extended.py` (scoring, ranking, preemption decision,
report handling, stale-entry cleanup, rule-table replacement, intersection
registration) and of the hysteresis membership decision of
`backend_fastapi.py`, and proves properties of those embeddings.

Modelling conventions:
* Python floats are modelled as rationals (`ℚ`); the `float("inf")` used as
  the sort key for an undefined ETA is modelled by `⊤` in `WithTop ℚ`.
* Python dicts (which preserve insertion order) are modelled as association
  lists; writing an existing key replaces the value in place, a new key is
  appended at the end, exactly as CPython dicts behave.
* Python's stable `list.sort` with a key tuple is modelled by
  `List.insertionSort` over the lexicographic order on the key tuple; a
  stable sort of a list by a total preorder is extensionally unique, so this
  agrees with the source's sort.
* The geodesic distance of a report's coordinates to the intersection
  (`geopy.distance.geodesic`, an external pure function of the coordinates)
  is carried as the `dist` field of the report.
* A JSON value that the source coerces with `int(...)` inside `try/except`
  is modelled as `Option Int`: `some n` for a value that parses to `n`,
  `none` for an unparseable value.
-/

/-- Raw `speed_m_s` value of a report as it arrives in the JSON payload:
absent (`None`), a number, or some non-numeric junk value (for which the
source's comparison `speed > 0` raises and is caught). -/
inductive SpeedInput
  | absent
  | num (x : ℚ)
  | nonNumeric
  deriving Repr, DecidableEq

/-- Rule table mapping a lower-cased condition tag to its weight
(`PRIORITY_RULES` in the source). -/
abbrev RuleTable := List (String × Int)

/-- Lookup in an association-list dict, mirroring Python `dict.get`. -/
def dictGet {α : Type} (m : List (String × α)) (k : String) : Option α :=
  match m with
  | [] => none
  | (k2, v) :: rest => if k2 = k then some v else dictGet rest k

/-- Write to an association-list dict, mirroring Python `dict.__setitem__`:
an existing key keeps its position and gets the new value, a new key is
appended at the end. -/
def dictInsert {α : Type} (m : List (String × α)) (k : String) (v : α) :
    List (String × α) :=
  match m with
  | [] => [(k, v)]
  | (k2, v2) :: rest =>
    if k2 = k then (k2, v) :: rest else (k2, v2) :: dictInsert rest k v

/-- Mirror of Python `dict.setdefault`: keep the dict unchanged when the key
is present, otherwise append the default. -/
def dictSetdefault {α : Type} (m : List (String × α)) (k : String) (v : α) :
    List (String × α) :=
  match dictGet m k with
  | some _ => m
  | none => m ++ [(k, v)]

/-- Default rule table of `backend_extended.py`:
`PRIORITY_RULES = {"pregnant": 10, "fever": 2}`. -/
def PRIORITY_RULES : RuleTable := [("pregnant", 10), ("fever", 2)]

/-- Staleness threshold of `backend_extended.py`: `STALE_SECONDS = 60`. -/
def STALE_SECONDS : ℚ := 60

/-- Preemption margin of `backend_extended.py`: `PREEMPT_MARGIN = 0`. -/
def PREEMPT_MARGIN : Int := 0

/-- Registry capacity of `backend_extended.py`: `MAX_INTERSECTIONS = 100`. -/
def MAX_INTERSECTIONS : Nat := 100

/-- Embedding of `compute_score`: sum the rule-table weights of the
lower-cased condition tags, an unknown tag contributing 0. -/
def compute_score (rules : RuleTable) (conditions : List String) : Int :=
  (conditions.map (fun c => (dictGet rules c.toLower).getD 0)).sum

/-- Embedding of `estimate_eta_s`: the source guards the division with
`if speed_m_s and speed_m_s > 0` inside `try/except`, so `None`, `0`, a
negative number, and a non-numeric value (whose comparison raises and is
caught) all yield `None`; only a positive number reaches the division. -/
def estimate_eta_s (distance_m : ℚ) (speed_m_s : SpeedInput) : Option ℚ :=
  match speed_m_s with
  | .num x => if x ≠ 0 ∧ 0 < x then some (distance_m / x) else none
  | .absent => none
  | .nonNumeric => none

/-- Tracked vehicle entry, mirroring the dict built in `update_location` of
`backend_extended.py`. -/
structure Entry where
  id : String
  lat : ℚ
  lon : ℚ
  direction : Option String
  speed_m_s : SpeedInput
  timestamp : ℚ
  patient_conditions : List String
  score : Int
  distance_m : ℚ
  eta_s : Option ℚ
  deriving Repr, DecidableEq

/-- Incoming location report, after the JSON parsing at the top of
`update_location`. The field `patient_score` is `none` when absent,
`some none` when present but unparseable, `some (some n)` when it parses.
The field `dist` abstracts the geodesic distance of `(lat, lon)` to the
intersection being processed. -/
structure Report where
  id : String
  lat : ℚ
  lon : ℚ
  direction : Option String
  speed_m_s : SpeedInput
  timestamp : ℚ
  patient_conditions : List String
  patient_score : Option (Option Int)
  dist : ℚ
  deriving Repr, DecidableEq

/-- Embedding of the score selection in `update_location`: the override is
used when present and parseable, otherwise the score is computed from the
condition tags. -/
def score_from (rules : RuleTable) (override : Option (Option Int))
    (conditions : List String) : Int :=
  match override with
  | some (some n) => n
  | some none => compute_score rules conditions
  | none => compute_score rules conditions

/-- Score of a report, as computed once per report in `update_location`. -/
def score_for_report (rules : RuleTable) (r : Report) : Int :=
  score_from rules r.patient_score r.patient_conditions

/-- Entry built for an in-range report in `update_location`; the ETA is
computed only when `speed` is not `None`. -/
def entry_of_report (rules : RuleTable) (r : Report) : Entry :=
  { id := r.id
    lat := r.lat
    lon := r.lon
    direction := r.direction
    speed_m_s := r.speed_m_s
    timestamp := r.timestamp
    patient_conditions := r.patient_conditions
    score := score_for_report rules r
    distance_m := r.dist
    eta_s := match r.speed_m_s with
      | .absent => none
      | s => estimate_eta_s r.dist s }

/-- ETA component of the sort key: the source maps a `None` ETA to
`float("inf")`, modelled by `⊤` of `WithTop ℚ`. -/
def eta_key (e : Entry) : WithTop ℚ :=
  match e.eta_s with
  | some x => (x : WithTop ℚ)
  | none => ⊤

/-- Sort key of `sorted_queue_for_intersection`:
`(-score, eta or inf, distance, timestamp)`, compared lexicographically as
Python compares tuples. -/
def sort_key (e : Entry) : Int ×ₗ ((WithTop ℚ) ×ₗ (ℚ ×ₗ ℚ)) :=
  toLex (-e.score, toLex (eta_key e, toLex (e.distance_m, e.timestamp)))

/-- Ranking relation used by the sort: ascending comparison of sort keys. -/
def key_le (a b : Entry) : Prop := sort_key a ≤ sort_key b

instance : DecidableRel key_le :=
  fun a b => inferInstanceAs (Decidable (sort_key a ≤ sort_key b))

instance : IsTotal Entry key_le :=
  ⟨fun a b => le_total (sort_key a) (sort_key b)⟩

instance : IsTrans Entry key_le :=
  ⟨fun _ _ _ h1 h2 => le_trans h1 h2⟩

/-- Embedding of `sorted_queue_for_intersection`: the entries of the
intersection's dict, in insertion order, stably sorted by the sort key. -/
def sorted_queue_for_intersection (amap : List (String × Entry)) :
    List Entry :=
  List.insertionSort key_le (amap.map Prod.snd)

/-- Payload of a `signal_update` event, restricted to the fields the core
logic determines. -/
structure Signal where
  status : String
  top_ambulance : Option Entry
  preempt : Bool
  deriving Repr, DecidableEq

/-- Embedding of `decide_and_emit_signal` for one intersection: from the
entry dict and the stored `active_top_id`, compute the new `active_top_id`
and the emitted signal. Note the source quirks kept here: `if prev_top_id:`
is Python truthiness, so an empty-string holder id skips the score lookup,
while the preemption branch tests `prev_top_id is None`. -/
def decide_and_emit_signal (amap : List (String × Entry))
    (active_top_id : Option String) : Option String × Signal :=
  let q := sorted_queue_for_intersection amap
  match q.head? with
  | some top =>
    let prev_top_score : Int :=
      match active_top_id with
      | none => 0
      | some p =>
        if p = "" then 0
        else match dictGet amap p with
          | some e => e.score
          | none => 0
    let preempt : Bool :=
      match active_top_id with
      | none => true
      | some p => decide (top.id ≠ p) &&
          decide (prev_top_score + PREEMPT_MARGIN ≤ top.score)
    let status : String := if 0 < top.score then "EMERGENCY" else "NORMAL"
    if preempt then (some top.id, ⟨status, some top, true⟩)
    else (active_top_id, ⟨status, some top, false⟩)
  | none =>
    match active_top_id with
    | some _ => (none, ⟨"CROSSED", none, false⟩)
    | none => (none, ⟨"NORMAL", none, false⟩)

/-- Mutable state of one intersection: its entry dict
(`intersection_ambulances[iid]`) and its `active_top_id`
(`intersection_state[iid]`; `last_emit_time` carries no logic and is
omitted). -/
structure IState where
  amap : List (String × Entry)
  active_top_id : Option String
  deriving Repr, DecidableEq

/-- State of a freshly registered intersection: empty dict, no holder. -/
def init_state : IState := ⟨[], none⟩

/-- Embedding of the per-intersection body of `update_location` in
`backend_extended.py`: when the report's distance is within the detection
range the entry is upserted and `decide_and_emit_signal` runs; otherwise
nothing at all happens for this intersection (no removal, no event). -/
def update_location (rules : RuleTable) (detection_range : ℚ) (r : Report)
    (s : IState) : IState × Option Signal :=
  if r.dist ≤ detection_range then
    let amap2 := dictInsert s.amap r.id (entry_of_report rules r)
    let d := decide_and_emit_signal amap2 s.active_top_id
    (⟨amap2, d.1⟩, some d.2)
  else (s, none)

/-- Embedding of one sweep of `cleanup_loop` over one intersection: delete
every entry whose timestamp is older than `STALE_SECONDS`, and when at
least one entry was removed re-run `decide_and_emit_signal`. -/
def cleanup_step (now : ℚ) (s : IState) : IState × Option Signal :=
  let amap2 :=
    s.amap.filter (fun p => ! decide (STALE_SECONDS < now - p.2.timestamp))
  if amap2.length = s.amap.length then (s, none)
  else
    let d := decide_and_emit_signal amap2 s.active_top_id
    (⟨amap2, d.1⟩, some d.2)

/-- Reachability of an intersection state under any interleaving of
location reports and reaper sweeps, starting from the fresh state. The
parameter `P` restricts the computed score of each processed report
(`fun _ => True` places no restriction). -/
inductive Reach (P : Int → Prop) : IState → Prop
  | init : Reach P init_state
  | report (rules : RuleTable) (range : ℚ) (r : Report) {s : IState}
      (hs : P (score_for_report rules r)) (h : Reach P s) :
      Reach P (update_location rules range r s).1
  | sweep (now : ℚ) {s : IState} (h : Reach P s) :
      Reach P (cleanup_step now s).1

/-- Input to `set_priority_rules`: either not a dict at all, or a dict whose
values may (`some n`) or may not (`none`) be coercible with `int(...)`. -/
inductive RulesInput
  | notDict
  | dict (entries : List (String × Option Int))

/-- Loop body of `set_priority_rules`: build the sanitized table
(keys lower-cased, values coerced), stopping with an error at the first
non-coercible value. -/
def build_rules : List (String × Option Int) → RuleTable →
    Except String RuleTable
  | [], acc => .ok acc
  | (k, v) :: rest, acc =>
    match v with
    | some n => build_rules rest (dictInsert acc k.toLower n)
    | none => .error ("invalid rule value for " ++ k)

/-- Sanitized table a successful `set_priority_rules` call installs,
accumulated left to right from the given start table. -/
def rules_transform (es : List (String × Option Int)) (acc : RuleTable) :
    RuleTable :=
  match es with
  | [] => acc
  | (k, v) :: rest => rules_transform rest (dictInsert acc k.toLower (v.getD 0))

/-- Embedding of `set_priority_rules`: returns the rule table after the call
together with an ok flag. The source assigns the module-level table only
after the whole loop succeeds, so any failure leaves the old table. -/
def set_priority_rules (old : RuleTable) (input : RulesInput) :
    RuleTable × Bool :=
  match input with
  | .notDict => (old, false)
  | .dict es =>
    match build_rules es [] with
    | .ok nr => (nr, true)
    | .error _ => (old, false)

/-- Intersection descriptor stored in the `intersections` dict. -/
structure Intersection where
  id : String
  name : String
  lat : ℚ
  lon : ℚ
  range_m : ℚ
  deriving Repr, DecidableEq

/-- Global stores of `backend_extended.py`: `intersections`,
`intersection_ambulances` and `intersection_state` (the latter reduced to
its `active_top_id` component). -/
structure Registry where
  intersections : List (String × Intersection)
  intersection_ambulances : List (String × List (String × Entry))
  intersection_state : List (String × Option String)
  deriving Repr, DecidableEq

/-- Embedding of `register_intersection`: the capacity check runs first,
before the id is even looked at; a successful call overwrites the
descriptor and uses `setdefault` for the queue stores, so an existing queue
is preserved. -/
def register_intersection (g : Registry) (iid : String)
    (name : Option String) (lat lon : ℚ) (range_m : Option ℚ) :
    Registry × Except String Intersection :=
  if MAX_INTERSECTIONS ≤ g.intersections.length then
    (g, .error "Max intersections reached")
  else
    let inter : Intersection :=
      ⟨iid, name.getD ("intersection:" ++ iid), lat, lon, range_m.getD 300⟩
    ({ intersections := dictInsert g.intersections iid inter
       intersection_ambulances := dictSetdefault g.intersection_ambulances iid []
       intersection_state := dictSetdefault g.intersection_state iid none },
     .ok inter)

/-- Embedding of the membership decision and state transition of
`update_location` in `backend_fastapi.py` for one vehicle id: given whether
the vehicle was tracked as in range, its distance, the detection range and
the hysteresis margin, return the new tracked flag and the emitted status.
An already-tracked vehicle stays while `distance ≤ range + margin`; an
untracked one enters only when `distance ≤ range`. -/
def fastapi_update_location (previously_in : Bool)
    (distance detection_range hysteresis_m : ℚ) : Bool × String :=
  let currently_in : Bool :=
    if previously_in then decide (distance ≤ detection_range + hysteresis_m)
    else decide (distance ≤ detection_range)
  if currently_in && ! previously_in then (true, "EMERGENCY")
  else if ! currently_in && previously_in then (false, "CROSSED")
  else if currently_in then (previously_in, "EMERGENCY")
  else (previously_in, "NORMAL")

/-- Modelled from the spec: the ranking rule as worded in the spec
("score descending; then ETA ascending with an undefined ETA ranked after
every defined ETA; then distance ascending; then report timestamp
ascending"), for comparison with the source's `sort_key` order. This
predicate holds when `a` ranks no worse than `b`. -/
def spec_eta_lt : Option ℚ → Option ℚ → Prop
  | some x, some y => x < y
  | some _, none => True
  | none, some _ => False
  | none, none => False

instance : DecidableRel spec_eta_lt := by
  intro a b
  cases a <;> cases b <;> simp [spec_eta_lt] <;> infer_instance

/-- Modelled from the spec: the full tie-break chain of the ranking rule,
see `spec_eta_lt`. -/
def spec_rank_le (a b : Entry) : Prop :=
  b.score < a.score ∨
    (a.score = b.score ∧
      (spec_eta_lt a.eta_s b.eta_s ∨
        (a.eta_s = b.eta_s ∧
          (a.distance_m < b.distance_m ∨
            (a.distance_m = b.distance_m ∧ a.timestamp ≤ b.timestamp)))))

/-! Concrete inputs used by counterexamples and witnesses. -/

/-- Report of vehicle A with a negative explicit score override, distance 50. -/
def repA : Report :=
  { id := "A", lat := 0, lon := 0, direction := none, speed_m_s := .absent,
    timestamp := 100, patient_conditions := [], patient_score := some (some (-5)),
    dist := 50 }

/-- Report of vehicle B with a negative explicit score override, distance 40,
stale timestamp 0. -/
def repB : Report :=
  { id := "B", lat := 0, lon := 0, direction := none, speed_m_s := .absent,
    timestamp := 0, patient_conditions := [], patient_score := some (some (-3)),
    dist := 40 }

/-- Report of vehicle C with an explicit score override of 7, in range. -/
def repC : Report :=
  { id := "C", lat := 1, lon := 2, direction := some "north", speed_m_s := .num 10,
    timestamp := 3, patient_conditions := ["pregnant"], patient_score := some (some 7),
    dist := 120 }

/-- Report of vehicle A at distance 500, outside a 300 m detection range. -/
def repA500 : Report :=
  { id := "A", lat := 3, lon := 3, direction := none, speed_m_s := .absent,
    timestamp := 100, patient_conditions := [], patient_score := some (some (-5)),
    dist := 500 }

/-- Report with the empty-string vehicle id (the source accepts it:
`str(j.get('id', 'default'))` keeps an explicit `""`), override score -5. -/
def repE : Report :=
  { id := "", lat := 0, lon := 0, direction := none, speed_m_s := .absent,
    timestamp := 10, patient_conditions := [], patient_score := some (some (-5)),
    dist := 50 }

/-- Report of vehicle x with override score -3, outranking `repE`. -/
def repX : Report :=
  { id := "x", lat := 0, lon := 0, direction := none, speed_m_s := .absent,
    timestamp := 20, patient_conditions := [], patient_score := some (some (-3)),
    dist := 60 }

/-- Entry with score 7 and a defined ETA of 30 seconds. -/
def entEta : Entry :=
  { id := "a", lat := 0, lon := 0, direction := none, speed_m_s := .num 10,
    timestamp := 5, patient_conditions := [], score := 7, distance_m := 300,
    eta_s := some 30 }

/-- Entry with score 7 and no ETA. -/
def entNoEta : Entry :=
  { id := "b", lat := 0, lon := 0, direction := none, speed_m_s := .absent,
    timestamp := 1, patient_conditions := [], score := 7, distance_m := 100,
    eta_s := none }

/-- Entry with score 1, used as a current holder in the C3 witness. -/
def entP : Entry :=
  { id := "p", lat := 0, lon := 0, direction := none, speed_m_s := .absent,
    timestamp := 1, patient_conditions := [], score := 1, distance_m := 10,
    eta_s := none }

/-- Entry with score 5, ranked ahead of `entP`. -/
def entQ : Entry :=
  { id := "q", lat := 0, lon := 0, direction := none, speed_m_s := .absent,
    timestamp := 2, patient_conditions := [], score := 5, distance_m := 20,
    eta_s := none }

/-- Queue map whose ranking head is `entQ` while the holder is `entP`. -/
def c3map : List (String × Entry) := [("p", entP), ("q", entQ)]

/-- Registry filled to the configured capacity of 100 intersections. -/
def big_registry : Registry :=
  { intersections :=
      (List.range 100).map (fun n => (toString n, ⟨toString n, "x", 0, 0, 300⟩))
    intersection_ambulances := []
    intersection_state := [] }

/-- Registry below capacity holding an existing queue for intersection "i". -/
def c8g : Registry :=
  { intersections := [("i", ⟨"i", "old", 1, 1, 200⟩)]
    intersection_ambulances := [("i", [("A", entP)])]
    intersection_state := [("i", some "A")] }

instance : DecidableEq (Except String Intersection)
  | .ok x, .ok y => decidable_of_iff (x = y) (by simp)
  | .ok _, .error _ => .isFalse (by simp)
  | .error _, .ok _ => .isFalse (by simp)
  | .error x, .error y => decidable_of_iff (x = y) (by simp)

attribute [local semireducible] Rat.add Rat.sub Rat.mul Rat.inv

/-- Well-formedness of an intersection's entry dict: every stored entry's
`id` field equals its key, and every stored score is non-negative. The first
conjunct holds in every reachable state; the second holds when every
processed report's score is non-negative. -/
def wf_entries (m : List (String × Entry)) : Prop :=
  (∀ p ∈ m, p.2.id = p.1) ∧ (∀ e ∈ m.map Prod.snd, 0 ≤ e.score)

/-- Stability of an intersection state: re-running the decision step on the
unchanged dict neither changes the holder nor emits a preemption event. -/
def stable (s : IState) : Prop :=
  (decide_and_emit_signal s.amap s.active_top_id).1 = s.active_top_id
  ∧ (decide_and_emit_signal s.amap s.active_top_id).2.preempt = false

/-! Helper lemmas about the dict model. -/

theorem dictGet_mem {α : Type} {m : List (String × α)} {k : String} {v : α}
    (h : dictGet m k = some v) : (k, v) ∈ m := by
  induction m with
  | nil => simp [dictGet] at h
  | cons p rest ih =>
    obtain ⟨k2, v2⟩ := p
    by_cases hk : k2 = k
    · subst hk
      simp [dictGet] at h
      simp [h]
    · simp only [dictGet, if_neg hk] at h
      exact List.mem_cons_of_mem _ (ih h)

theorem dictGet_isSome_of_mem {α : Type} {m : List (String × α)} {k : String}
    {v : α} (h : (k, v) ∈ m) : (dictGet m k).isSome = true := by
  induction m with
  | nil => simp at h
  | cons p rest ih =>
    obtain ⟨k2, v2⟩ := p
    by_cases hk : k2 = k
    · simp [dictGet, hk]
    · rcases List.mem_cons.1 h with h1 | h1
      · cases h1; simp at hk
      · simp only [dictGet, if_neg hk]
        exact ih h1

theorem dictInsert_get_eq {α : Type} {m : List (String × α)} {k : String}
    {v : α} (h : dictGet m k = some v) : dictInsert m k v = m := by
  induction m with
  | nil => simp [dictGet] at h
  | cons p rest ih =>
    obtain ⟨k2, v2⟩ := p
    by_cases hk : k2 = k
    · subst hk
      simp [dictGet] at h
      simp [dictInsert, h]
    · simp only [dictGet, if_neg hk] at h
      simp [dictInsert, hk, ih h]

theorem mem_values_dictInsert {α : Type} {m : List (String × α)} {k : String}
    {v w : α} (h : w ∈ (dictInsert m k v).map Prod.snd) :
    w = v ∨ w ∈ m.map Prod.snd := by
  induction m with
  | nil => simp [dictInsert] at h; simp [h]
  | cons p rest ih =>
    obtain ⟨k2, v2⟩ := p
    by_cases hk : k2 = k
    · simp only [dictInsert, if_pos hk, List.map_cons, List.mem_cons] at h
      rcases h with h | h
      · exact Or.inl h
      · exact Or.inr (by simp [h])
    · simp only [dictInsert, if_neg hk, List.map_cons, List.mem_cons] at h
      rcases h with h | h
      · exact Or.inr (by simp [h])
      · rcases ih h with h1 | h1
        · exact Or.inl h1
        · exact Or.inr (List.mem_cons_of_mem _ h1)

theorem dictInsert_forall {α : Type} {Q : String × α → Prop} :
    ∀ (m : List (String × α)) (k : String) (v : α), (∀ p ∈ m, Q p) →
      Q (k, v) → ∀ p ∈ dictInsert m k v, Q p := by
  intro m
  induction m with
  | nil =>
    intro k v _ hv q hq
    simp only [dictInsert, List.mem_singleton] at hq
    exact hq ▸ hv
  | cons p rest ih =>
    obtain ⟨k2, v2⟩ := p
    intro k v hm hv q hq
    by_cases hk : k2 = k
    · simp only [dictInsert, if_pos hk, List.mem_cons] at hq
      rcases hq with hq | hq
      · subst hk
        exact hq ▸ hv
      · exact hm _ (List.mem_cons_of_mem _ hq)
    · simp only [dictInsert, if_neg hk, List.mem_cons] at hq
      rcases hq with hq | hq
      · exact hq ▸ hm _ (List.mem_cons_self _ _)
      · exact ih k v (fun p hp => hm p (List.mem_cons_of_mem _ hp)) hv q hq

theorem dictSetdefault_of_isSome {α : Type} {m : List (String × α)}
    {k : String} {v : α} (h : (dictGet m k).isSome = true) :
    dictSetdefault m k v = m := by
  unfold dictSetdefault
  cases hg : dictGet m k with
  | none => rw [hg] at h; simp at h
  | some w => rfl

/-! Helper lemmas about the ranking order. -/

theorem sorted_queue_perm (amap : List (String × Entry)) :
    (sorted_queue_for_intersection amap).Perm (amap.map Prod.snd) :=
  List.perm_insertionSort key_le (amap.map Prod.snd)

theorem sorted_queue_pairwise (amap : List (String × Entry)) :
    List.Pairwise key_le (sorted_queue_for_intersection amap) :=
  List.sorted_insertionSort key_le (amap.map Prod.snd)

theorem key_le_score {a b : Entry} (h : key_le a b) : b.score ≤ a.score := by
  unfold key_le sort_key at h
  rcases (Prod.Lex.le_iff _ _).1 h with h1 | ⟨h1, _⟩
  · exact le_of_lt (by simpa using neg_lt_neg_iff.1 h1)
  · exact le_of_eq (by simpa using (neg_inj.1 h1).symm)

theorem head_score_max {amap : List (String × Entry)} {top : Entry}
    (h : (sorted_queue_for_intersection amap).head? = some top) :
    ∀ e ∈ amap.map Prod.snd, e.score ≤ top.score := by
  intro e he
  have hmem : e ∈ sorted_queue_for_intersection amap :=
    ((sorted_queue_perm amap).mem_iff).2 he
  cases hs : sorted_queue_for_intersection amap with
  | nil => rw [hs] at h; simp at h
  | cons x t =>
    rw [hs] at h
    simp only [List.head?_cons, Option.some.injEq] at h
    subst h
    rw [hs] at hmem
    rcases List.mem_cons.1 hmem with h1 | h1
    · exact le_of_eq (by rw [h1])
    · have hp := sorted_queue_pairwise amap
      rw [hs] at hp
      exact key_le_score ((List.pairwise_cons.1 hp).1 e h1)

theorem head_mem_values {amap : List (String × Entry)} {top : Entry}
    (h : (sorted_queue_for_intersection amap).head? = some top) :
    top ∈ amap.map Prod.snd := by
  have : top ∈ sorted_queue_for_intersection amap := by
    cases hs : sorted_queue_for_intersection amap with
    | nil => rw [hs] at h; simp at h
    | cons x t =>
      rw [hs] at h
      simp only [List.head?_cons, Option.some.injEq] at h
      rw [h]
      exact List.mem_cons_self _ _
  exact ((sorted_queue_perm amap).mem_iff).1 this

theorem eta_key_lt_iff (a b : Entry) :
    eta_key a < eta_key b ↔ spec_eta_lt a.eta_s b.eta_s := by
  unfold eta_key spec_eta_lt
  cases ha : a.eta_s with
  | none =>
    cases hb : b.eta_s with
    | none => simp
    | some y => simp [WithTop.not_top_lt]
  | some x =>
    cases hb : b.eta_s with
    | none => simp [WithTop.coe_lt_top]
    | some y => simp [WithTop.coe_lt_coe]

theorem eta_key_eq_iff (a b : Entry) :
    eta_key a = eta_key b ↔ a.eta_s = b.eta_s := by
  unfold eta_key
  cases ha : a.eta_s with
  | none =>
    cases hb : b.eta_s with
    | none => simp
    | some y => simp [(WithTop.coe_ne_top (a := y)).symm]
  | some x =>
    cases hb : b.eta_s with
    | none => simp [WithTop.coe_ne_top (a := x)]
    | some y => simp

theorem key_le_iff_spec (a b : Entry) : key_le a b ↔ spec_rank_le a b := by
  unfold key_le sort_key spec_rank_le
  rw [Prod.Lex.le_iff, Prod.Lex.le_iff, Prod.Lex.le_iff]
  simp only [neg_lt_neg_iff, neg_inj, eta_key_lt_iff, eta_key_eq_iff]

/-! Behaviour of the decision step. -/

theorem decide_sets_head (amap : List (String × Entry)) (a : Option String)
    (hnn : ∀ e ∈ amap.map Prod.snd, 0 ≤ e.score) :
    (decide_and_emit_signal amap a).1
      = (sorted_queue_for_intersection amap).head?.map Entry.id := by
  cases hq : (sorted_queue_for_intersection amap).head? with
  | none =>
    simp only [decide_and_emit_signal, hq]
    cases a <;> simp
  | some top =>
    have htop : ∀ e ∈ amap.map Prod.snd, e.score ≤ top.score := head_score_max hq
    have htopnn : 0 ≤ top.score := hnn top (head_mem_values hq)
    simp only [decide_and_emit_signal, hq]
    cases a with
    | none => simp
    | some p =>
      by_cases hp : top.id = p
      · simp [hp]
      · have hprev :
            (if p = "" then 0
              else match dictGet amap p with
                | some e => e.score
                | none => 0) + PREEMPT_MARGIN ≤ top.score := by
          have hm : PREEMPT_MARGIN = 0 := rfl
          rw [hm, add_zero]
          by_cases hpe : p = ""
          · simpa [hpe] using htopnn
          · simp only [if_neg hpe]
            cases hg : dictGet amap p with
            | none => exact htopnn
            | some e =>
              exact htop e (List.mem_map_of_mem Prod.snd (dictGet_mem hg))
        simp [hp, hprev]

theorem decide_idem (amap : List (String × Entry)) (a : Option String) :
    (decide_and_emit_signal amap (decide_and_emit_signal amap a).1).1
        = (decide_and_emit_signal amap a).1
    ∧ (decide_and_emit_signal amap (decide_and_emit_signal amap a).1).2.preempt
        = false := by
  cases hq : (sorted_queue_for_intersection amap).head? with
  | none =>
    simp only [decide_and_emit_signal, hq]
    cases a <;> simp
  | some top =>
    cases a with
    | none => simp [decide_and_emit_signal, hq]
    | some p =>
      by_cases hp : top.id = p
      · simp [decide_and_emit_signal, hq, hp]
      · by_cases hcond :
            (if p = "" then 0
              else match dictGet amap p with
                | some e => e.score
                | none => 0) + PREEMPT_MARGIN ≤ top.score
        · simp [decide_and_emit_signal, hq, hp, hcond]
        · simp [decide_and_emit_signal, hq, hp, hcond]

/-! Invariants of reachable intersection states. -/

theorem reach_stable {P : Int → Prop} {s : IState} (h : Reach P s) :
    stable s := by
  induction h with
  | init =>
    constructor <;>
      simp [decide_and_emit_signal, init_state, sorted_queue_for_intersection]
  | @report rules range r s2 hs hsub ih =>
    by_cases hd : r.dist ≤ range
    · have := decide_idem (dictInsert s2.amap r.id (entry_of_report rules r))
        s2.active_top_id
      constructor <;> simp [update_location, hd, stable, this.1, this.2]
    · constructor <;> simp [update_location, hd, ih.1, ih.2]
  | @sweep now s2 hsub ih =>
    by_cases hlen :
        (s2.amap.filter
            (fun p => ! decide (STALE_SECONDS < now - p.2.timestamp))).length
          = s2.amap.length
    · constructor <;> simp [cleanup_step, hlen, ih.1, ih.2]
    · have := decide_idem
        (s2.amap.filter (fun p => ! decide (STALE_SECONDS < now - p.2.timestamp)))
        s2.active_top_id
      constructor <;> simp [cleanup_step, hlen, stable, this.1, this.2]

theorem reach_wf {s : IState} (h : Reach (fun z => 0 ≤ z) s) :
    wf_entries s.amap := by
  induction h with
  | init => constructor <;> simp [init_state]
  | @report rules range r s2 hs hsub ih =>
    by_cases hd : r.dist ≤ range
    · simp only [update_location, if_pos hd]
      constructor
      · exact dictInsert_forall s2.amap r.id _ ih.1 (by simp [entry_of_report])
      · intro e he
        rcases mem_values_dictInsert he with h1 | h1
        · rw [h1]
          simpa [entry_of_report] using hs
        · exact ih.2 e h1
    · simpa [update_location, hd] using ih
  | @sweep now s2 hsub ih =>
    by_cases hlen :
        (s2.amap.filter
            (fun p => ! decide (STALE_SECONDS < now - p.2.timestamp))).length
          = s2.amap.length
    · simpa [cleanup_step, hlen] using ih
    · simp only [cleanup_step, if_neg hlen]
      constructor
      · intro p hp
        exact ih.1 p (List.mem_of_mem_filter hp)
      · intro e he
        rcases List.mem_map.1 he with ⟨p, hp, hpe⟩
        exact hpe ▸ ih.2 p.2 (List.mem_map_of_mem Prod.snd (List.mem_of_mem_filter hp))

theorem reach_head {s : IState} (h : Reach (fun z => 0 ≤ z) s) :
    s.active_top_id
      = (sorted_queue_for_intersection s.amap).head?.map Entry.id := by
  induction h with
  | init => simp [init_state, sorted_queue_for_intersection]
  | @report rules range r s2 hs hsub ih =>
    by_cases hd : r.dist ≤ range
    · have hwf := reach_wf (Reach.report rules range r hs hsub)
      rw [update_location, if_pos hd] at hwf
      simp only [update_location, if_pos hd] at hwf ⊢
      exact decide_sets_head _ _ hwf.2
    · simpa [update_location, hd] using ih
  | @sweep now s2 hsub ih =>
    by_cases hlen :
        (s2.amap.filter
            (fun p => ! decide (STALE_SECONDS < now - p.2.timestamp))).length
          = s2.amap.length
    · simpa [cleanup_step, hlen] using ih
    · have hwf := reach_wf (Reach.sweep now hsub)
      simp only [cleanup_step, if_neg hlen] at hwf ⊢
      exact decide_sets_head _ _ hwf.2

/-! Claim theorems. -/

/-- C1 (amended): for every sequence of location reports and reaper sweeps
on one intersection in which every processed report's computed score is
non-negative (as with the default rule table and no negative overrides),
after each step the stored `active_top_id`, when set, equals the identifier
of the head of the ranking order over the currently-tracked entries, and in
particular refers to a vehicle present in the entry map. With a
negative-score report this fails, see the counterexample. -/
theorem C1_leader_invariant {s : IState} (h : Reach (fun z => 0 ≤ z) s) :
    s.active_top_id
      = (sorted_queue_for_intersection s.amap).head?.map Entry.id
    ∧ ∀ p, s.active_top_id = some p → (dictGet s.amap p).isSome = true := by
  have h1 := reach_head h
  refine ⟨h1, fun p hp => ?_⟩
  rw [h1] at hp
  cases hq : (sorted_queue_for_intersection s.amap).head? with
  | none => rw [hq] at hp; simp at hp
  | some top =>
    rw [hq] at hp
    simp only [Option.map_some', Option.some.injEq] at hp
    have hmem : top ∈ s.amap.map Prod.snd := head_mem_values hq
    rcases List.mem_map.1 hmem with ⟨q, hq2, hq3⟩
    have hid : q.2.id = q.1 := (reach_wf h).1 q hq2
    have : (q.1, top) ∈ s.amap := by
      have : q = (q.1, q.2) := rfl
      rw [hq3] at this
      simpa [← this] using hq2
    have := dictGet_isSome_of_mem this
    rwa [← hp, ← hq3, hid]

/-- Witness for C1: a concrete reachable state satisfying the invariant. -/
theorem C1_leader_invariant_witness :
    (update_location PRIORITY_RULES 300 repC init_state).1.active_top_id
      = (sorted_queue_for_intersection
          (update_location PRIORITY_RULES 300 repC init_state).1.amap).head?.map
            Entry.id :=
  (C1_leader_invariant
    (Reach.report PRIORITY_RULES 300 repC (by decide) Reach.init)).1

/-- Counterexample for C1 as stated: after report A (override score -5),
report B (override score -3) and a reaper sweep at time 70 that evicts the
stale leader B, the stored holder is still B, which is neither the head of
the ranking order (A is) nor present in the entry map. -/
theorem C1_counterexample :
    ((cleanup_step 70 (update_location PRIORITY_RULES 300 repB
        (update_location PRIORITY_RULES 300 repA init_state).1).1).1.active_top_id
      = some "B")
    ∧ (dictGet (cleanup_step 70 (update_location PRIORITY_RULES 300 repB
        (update_location PRIORITY_RULES 300 repA init_state).1).1).1.amap "B"
      = none)
    ∧ ((sorted_queue_for_intersection
        (cleanup_step 70 (update_location PRIORITY_RULES 300 repB
          (update_location PRIORITY_RULES 300 repA init_state).1).1).1.amap).head?.map
            Entry.id
      = some "A") := by
  refine ⟨?_, ?_, ?_⟩ <;> decide

/-- C2 (amended): a report whose distance to the intersection exceeds the
detection range is a no-op for that intersection: the tracked entry (if
any) is NOT removed, the leader is not recomputed, and no event is emitted.
Entries leave the queue only through the reaper's staleness eviction. -/
theorem C2_out_of_range_noop (rules : RuleTable) (range : ℚ) (r : Report)
    (s : IState) (h : range < r.dist) :
    update_location rules range r s = (s, none) := by
  rw [update_location, if_neg (not_le.mpr h)]

/-- Witness for C2 (amended) at a concrete out-of-range report. -/
theorem C2_witness :
    update_location PRIORITY_RULES 300 repA500 init_state
      = (init_state, none) :=
  C2_out_of_range_noop PRIORITY_RULES 300 repA500 init_state (by decide)

/-- Counterexample for C2 as stated: vehicle A is tracked (distance 50,
range 300); a new report places A at distance 500 > 300, yet A's entry is
not removed — the whole intersection state is untouched. -/
theorem C2_counterexample :
    (300 : ℚ) < repA500.dist
    ∧ (update_location PRIORITY_RULES 300 repA500
        (update_location PRIORITY_RULES 300 repA init_state).1).1
      = (update_location PRIORITY_RULES 300 repA init_state).1
    ∧ (dictGet (update_location PRIORITY_RULES 300 repA500
        (update_location PRIORITY_RULES 300 repA init_state).1).1.amap
          "A").isSome = true := by
  refine ⟨?_, ?_, ?_⟩ <;> decide

/-- C9: re-sending a report identical in all fields to the entry already
tracked for that vehicle leaves the active holder unchanged and emits no
preemption event, in every reachable state. -/
theorem C9_identical_resend {s : IState} (rules : RuleTable) (range : ℚ)
    (r : Report) (hr : Reach (fun _ => True) s)
    (he : dictGet s.amap r.id = some (entry_of_report rules r)) :
    (update_location rules range r s).1.active_top_id = s.active_top_id
    ∧ ∀ sig, (update_location rules range r s).2 = some sig →
        sig.preempt = false := by
  by_cases hd : r.dist ≤ range
  · have hins : dictInsert s.amap r.id (entry_of_report rules r) = s.amap :=
      dictInsert_get_eq he
    have hst := reach_stable hr
    constructor
    · simp only [update_location, if_pos hd, hins]
      exact hst.1
    · intro sig hsig
      simp only [update_location, if_pos hd, hins, Option.some.injEq] at hsig
      rw [← hsig]
      exact hst.2
  · constructor
    · simp [update_location, hd]
    · intro sig hsig
      simp [update_location, hd] at hsig

/-- Witness for C9: vehicle C is tracked, then re-sends the identical
report; the holder stays C. -/
theorem C9_identical_resend_witness :
    (update_location PRIORITY_RULES 300 repC
        (update_location PRIORITY_RULES 300 repC init_state).1).1.active_top_id
      = (update_location PRIORITY_RULES 300 repC init_state).1.active_top_id :=
  (C9_identical_resend PRIORITY_RULES 300 repC
    (Reach.report PRIORITY_RULES 300 repC trivial Reach.init) (by decide)).1

/-- C3 (amended): with a non-empty queue, a preemption event is emitted
(and the holder updated to the queue head) exactly when there is no current
holder, or the head's identifier differs from the holder's and the head's
score is at least the holder's EFFECTIVE score plus `PREEMPT_MARGIN`
(which is 0, so a tied score with a different identifier preempts). The
holder's effective score is its entry's score when the holder identifier is
non-empty and present in the map, but 0 when the holder identifier is the
empty string (the source's Python truthiness test `if prev_top_id:`) or
the holder is absent from the map. When the head's identifier equals the
holder's, no preemption event is emitted but a non-preempting update
naming the head is still emitted. -/
theorem C3_preemption (amap : List (String × Entry)) (top : Entry)
    (p : String)
    (hq : (sorted_queue_for_intersection amap).head? = some top) :
    PREEMPT_MARGIN = 0
    ∧ (∀ ep, p ≠ "" → dictGet amap p = some ep →
        ((decide_and_emit_signal amap (some p)).2.preempt = true
          ↔ (top.id ≠ p ∧ ep.score + PREEMPT_MARGIN ≤ top.score)))
    ∧ ((p = "" ∨ dictGet amap p = none) →
        ((decide_and_emit_signal amap (some p)).2.preempt = true
          ↔ (top.id ≠ p ∧ 0 + PREEMPT_MARGIN ≤ top.score)))
    ∧ ((decide_and_emit_signal amap (some p)).2.preempt = true →
        (decide_and_emit_signal amap (some p)).1 = some top.id)
    ∧ ((decide_and_emit_signal amap none).2.preempt = true
        ∧ (decide_and_emit_signal amap none).1 = some top.id)
    ∧ (top.id = p →
        (decide_and_emit_signal amap (some p)).2.preempt = false
        ∧ (decide_and_emit_signal amap (some p)).2.top_ambulance = some top
        ∧ (decide_and_emit_signal amap (some p)).1 = some p) := by
  refine ⟨rfl, ?_, ?_, ?_, ?_, ?_⟩
  · intro ep hp hget
    simp only [decide_and_emit_signal, hq, if_neg hp, hget]
    by_cases h1 : top.id = p
    · simp [h1]
    · by_cases h2 : ep.score + PREEMPT_MARGIN ≤ top.score
      · simp [h1, h2]
      · simp [h1, h2]
  · intro hz
    rcases hz with hpe | hnone
    · subst hpe
      by_cases h1 : top.id = ""
      · simp [decide_and_emit_signal, hq, h1]
      · by_cases h2 : PREEMPT_MARGIN ≤ top.score
        · simp [decide_and_emit_signal, hq, h1, h2]
        · simp [decide_and_emit_signal, hq, h1, h2]
    · by_cases hpe : p = ""
      · subst hpe
        by_cases h1 : top.id = ""
        · simp [decide_and_emit_signal, hq, h1]
        · by_cases h2 : PREEMPT_MARGIN ≤ top.score
          · simp [decide_and_emit_signal, hq, h1, h2]
          · simp [decide_and_emit_signal, hq, h1, h2]
      · by_cases h1 : top.id = p
        · simp [decide_and_emit_signal, hq, if_neg hpe, hnone, h1]
        · by_cases h2 : PREEMPT_MARGIN ≤ top.score
          · simp [decide_and_emit_signal, hq, if_neg hpe, hnone, h1, h2]
          · simp [decide_and_emit_signal, hq, if_neg hpe, hnone, h1, h2]
  · intro hpre
    by_cases h1 : top.id = p
    · simp [decide_and_emit_signal, hq, h1] at hpre
    · by_cases hpe : p = ""
      · subst hpe
        by_cases h2 : PREEMPT_MARGIN ≤ top.score
        · simp [decide_and_emit_signal, hq, h1, h2]
        · simp [decide_and_emit_signal, hq, h1, h2] at hpre
      · cases hg : dictGet amap p with
        | none =>
          by_cases h2 : PREEMPT_MARGIN ≤ top.score
          · simp [decide_and_emit_signal, hq, if_neg hpe, hg, h1, h2]
          · simp [decide_and_emit_signal, hq, if_neg hpe, hg, h1, h2] at hpre
        | some e =>
          by_cases h2 : e.score + PREEMPT_MARGIN ≤ top.score
          · simp [decide_and_emit_signal, hq, if_neg hpe, hg, h1, h2]
          · simp [decide_and_emit_signal, hq, if_neg hpe, hg, h1, h2] at hpre
  · constructor <;> simp [decide_and_emit_signal, hq]
  · intro h1
    refine ⟨?_, ?_, ?_⟩ <;> simp [decide_and_emit_signal, hq, h1]

/-- Witness for C3 at a concrete two-entry queue: the head `entQ` has a
different id and a higher score than the holder `entP` (non-empty id,
present in the map), so the preemption event fires. -/
theorem C3_preemption_witness :
    (decide_and_emit_signal c3map (some "p")).2.preempt = true :=
  ((C3_preemption c3map entQ "p" (by decide)).2.1 entP (by decide)
      (by decide)).mpr (by decide)

/-- Counterexample for C3 as stated: reachable state (report with id "",
override score -5, then report of "x" with override score -3) in which the
holder is "" with its entry PRESENT in the map, the head is "x" with a
different identifier and a score at least the holder's stored score plus
the margin — the claim's preemption condition — yet the decision step
emits no preemption event and keeps the stale holder "", because the
source's truthiness test `if prev_top_id:` reads the empty-string holder's
score as 0 and -3 is below 0. -/
theorem C3_counterexample :
    ((sorted_queue_for_intersection (update_location PRIORITY_RULES 300 repX
        (update_location PRIORITY_RULES 300 repE init_state).1).1.amap).head?
      = some (entry_of_report PRIORITY_RULES repX))
    ∧ ((update_location PRIORITY_RULES 300 repX
        (update_location PRIORITY_RULES 300 repE init_state).1).1.active_top_id
      = some "")
    ∧ (dictGet (update_location PRIORITY_RULES 300 repX
        (update_location PRIORITY_RULES 300 repE init_state).1).1.amap ""
      = some (entry_of_report PRIORITY_RULES repE))
    ∧ (entry_of_report PRIORITY_RULES repX).id ≠ ""
    ∧ ((entry_of_report PRIORITY_RULES repE).score + PREEMPT_MARGIN
      ≤ (entry_of_report PRIORITY_RULES repX).score)
    ∧ ((decide_and_emit_signal (update_location PRIORITY_RULES 300 repX
        (update_location PRIORITY_RULES 300 repE init_state).1).1.amap
          (some "")).2.preempt = false)
    ∧ ((decide_and_emit_signal (update_location PRIORITY_RULES 300 repX
        (update_location PRIORITY_RULES 300 repE init_state).1).1.amap
          (some "")).1 = some "") := by
  refine ⟨?_, ?_, ?_, ?_, ?_, ?_, ?_⟩ <;> decide

/-- C4: the ranking order of `sorted_queue_for_intersection` is exactly the
spec's chain — score descending, then ETA ascending with an undefined ETA
after every defined one, then distance ascending, then report timestamp
ascending — the produced queue is sorted by that relation and is a
permutation of the tracked entries; and of two entries with equal score
where exactly one has a defined ETA (30 s), the defined-ETA entry ranks
first. -/
theorem C4_ranking_rule :
    (∀ a b, key_le a b ↔ spec_rank_le a b)
    ∧ (∀ amap, List.Pairwise key_le (sorted_queue_for_intersection amap))
    ∧ (∀ amap,
        (sorted_queue_for_intersection amap).Perm (amap.map Prod.snd))
    ∧ sorted_queue_for_intersection [("b", entNoEta), ("a", entEta)]
      = [entEta, entNoEta] := by
  refine ⟨key_le_iff_spec, sorted_queue_pairwise, sorted_queue_perm, by decide⟩

/-- C5: the score equals the explicit override when it parses; otherwise
(absent or unparseable) the sum of rule-table weights of the tags, matched
case-insensitively, unknown tags contributing 0; with the default rules
["pregnant","fever"] yields 12 and an override of 5 yields 5 regardless of
tags. -/
theorem C5_scoring :
    (∀ conds n, score_from PRIORITY_RULES (some (some n)) conds = n)
    ∧ (∀ conds, score_from PRIORITY_RULES (some none) conds
        = compute_score PRIORITY_RULES conds)
    ∧ (∀ rules conds, score_from rules none conds = compute_score rules conds)
    ∧ compute_score PRIORITY_RULES ["pregnant", "fever"] = 12
    ∧ (∀ conds, score_from PRIORITY_RULES (some (some 5)) conds = 5)
    ∧ compute_score PRIORITY_RULES ["PREGNANT", "Fever"] = 12
    ∧ (∀ rules c, dictGet rules (String.toLower c) = none →
        compute_score rules [c] = 0) := by
  refine ⟨fun conds n => rfl, fun conds => rfl, fun rules conds => rfl,
    ?_, fun conds => rfl, ?_, ?_⟩
  · simp only [compute_score, String.toLower, String.map_eq]
    decide
  · simp only [compute_score, String.toLower, String.map_eq]
    decide
  · intro rules c h
    simp [compute_score, h]

/-- Witness for C5: an unknown tag contributes 0. -/
theorem C5_scoring_witness : compute_score [] ["anytag"] = 0 :=
  C5_scoring.2.2.2.2.2.2 [] "anytag" rfl

/-- C6: in the FastAPI hysteresis variant, a tracked vehicle stays tracked
exactly when its distance is at most range plus margin (so distance exactly
range + margin stays tracked), while an untracked vehicle enters exactly
when its distance is at most the range (so any strictly larger distance
does not enter). -/
theorem C6_hysteresis :
    (∀ d r m, ((fastapi_update_location true d r m).1 = true ↔ d ≤ r + m))
    ∧ (∀ d r m, ((fastapi_update_location false d r m).1 = true ↔ d ≤ r))
    ∧ (∀ r m, (fastapi_update_location true (r + m) r m).1 = true)
    ∧ (∀ r m e, 0 < e →
        (fastapi_update_location false (r + e) r m).1 = false) := by
  refine ⟨?_, ?_, ?_, ?_⟩
  · intro d r m
    by_cases hc : d ≤ r + m <;> simp [fastapi_update_location, hc]
  · intro d r m
    by_cases hc : d ≤ r <;> simp [fastapi_update_location, hc]
  · intro r m
    simp [fastapi_update_location]
  · intro r m e he
    have hc : ¬ (r + e ≤ r) := by linarith
    simp [fastapi_update_location, hc]

/-- Witness for C6: an untracked vehicle just past the range stays out. -/
theorem C6_hysteresis_witness :
    (fastapi_update_location false (50 + 1) 50 5).1 = false :=
  C6_hysteresis.2.2.2 50 5 1 (by decide)

theorem build_rules_error_iff :
    ∀ (es : List (String × Option Int)) (acc : RuleTable),
      (∃ msg, build_rules es acc = .error msg) ↔ ∃ p ∈ es, p.2 = none := by
  intro es
  induction es with
  | nil => intro acc; simp [build_rules]
  | cons p rest ih =>
    intro acc
    obtain ⟨k, v⟩ := p
    cases v with
    | some n => simp [build_rules, ih]
    | none => simp [build_rules]

theorem build_rules_ok_eq :
    ∀ (es : List (String × Option Int)) (acc tbl : RuleTable),
      build_rules es acc = .ok tbl → tbl = rules_transform es acc := by
  intro es
  induction es with
  | nil =>
    intro acc tbl h
    simp [build_rules] at h
    simp [rules_transform, h]
  | cons p rest ih =>
    intro acc tbl h
    obtain ⟨k, v⟩ := p
    cases v with
    | some n =>
      simp only [build_rules] at h
      simpa [rules_transform] using ih _ _ h
    | none => simp [build_rules] at h

/-- C7: `set_priority_rules` fails exactly when the input is not a dict or
some value is not integer-coercible; on failure the rule table is left
unchanged; on success the whole table is replaced by the sanitized input
(keys lower-cased, values coerced), independent of the previous table. -/
theorem C7_set_rules :
    (∀ old, set_priority_rules old RulesInput.notDict = (old, false))
    ∧ (∀ old es, (set_priority_rules old (RulesInput.dict es)).2 = false
        ↔ ∃ p ∈ es, p.2 = none)
    ∧ (∀ old es, (set_priority_rules old (RulesInput.dict es)).2 = false →
        (set_priority_rules old (RulesInput.dict es)).1 = old)
    ∧ (∀ old es, (set_priority_rules old (RulesInput.dict es)).2 = true →
        (set_priority_rules old (RulesInput.dict es)).1
          = rules_transform es []) := by
  refine ⟨fun old => rfl, ?_, ?_, ?_⟩
  · intro old es
    cases hb : build_rules es [] with
    | ok tbl =>
      simp only [set_priority_rules, hb]
      constructor
      · intro h
        exact absurd h (by simp)
      · intro hex
        rcases (build_rules_error_iff es []).2 hex with ⟨msg, hmsg⟩
        rw [hmsg] at hb
        exact absurd hb (by simp)
    | error msg =>
      simp only [set_priority_rules, hb]
      simp only [eq_self_iff_true, true_iff]
      exact (build_rules_error_iff es []).1 ⟨msg, hb⟩
  · intro old es h
    cases hb : build_rules es [] with
    | ok tbl => simp [set_priority_rules, hb] at h
    | error msg => simp [set_priority_rules, hb]
  · intro old es h
    cases hb : build_rules es [] with
    | ok tbl =>
      simp only [set_priority_rules, hb]
      exact build_rules_ok_eq es [] tbl hb
    | error msg => simp [set_priority_rules, hb] at h

/-- Witness for C7: a successful call installs the sanitized table,
independent of the old table. -/
theorem C7_set_rules_witness :
    (set_priority_rules [("x", 1)] (RulesInput.dict [("A", some 3)])).1
      = rules_transform [("A", some 3)] [] :=
  C7_set_rules.2.2.2 [("x", 1)] [("A", some 3)] rfl

/-- C8 (amended): registration fails with "Max intersections reached"
exactly when the registry already holds the configured maximum, regardless
of whether the id already exists (the capacity check precedes the id
lookup); below capacity registration succeeds, overwrites the descriptor,
and preserves (does not reset) an existing queue store for that id. -/
theorem C8_capacity (g : Registry) (iid : String) (nm : Option String)
    (lat lon : ℚ) (rng : Option ℚ) :
    ((register_intersection g iid nm lat lon rng).2
        = Except.error "Max intersections reached"
      ↔ MAX_INTERSECTIONS ≤ g.intersections.length)
    ∧ (g.intersections.length < MAX_INTERSECTIONS →
        (register_intersection g iid nm lat lon rng).2
          = Except.ok ⟨iid, nm.getD ("intersection:" ++ iid), lat, lon,
              rng.getD 300⟩
        ∧ ((dictGet g.intersection_ambulances iid).isSome = true →
            (register_intersection g iid nm lat lon
              rng).1.intersection_ambulances
              = g.intersection_ambulances)) := by
  constructor
  · by_cases hc : MAX_INTERSECTIONS ≤ g.intersections.length
    · simp [register_intersection, hc]
    · simp [register_intersection, hc]
  · intro hlt
    have hc : ¬ MAX_INTERSECTIONS ≤ g.intersections.length := not_le.mpr hlt
    constructor
    · simp [register_intersection, hc]
    · intro hsome
      simp [register_intersection, hc, dictSetdefault_of_isSome hsome]

/-- Witness for C8 (amended): below capacity, re-registering "i" keeps its
existing queue store. -/
theorem C8_capacity_witness :
    (register_intersection c8g "i" none 0 0 none).1.intersection_ambulances
      = c8g.intersection_ambulances :=
  ((C8_capacity c8g "i" none 0 0 none).2 (by decide)).2 (by decide)

/-- Counterexample for C8 as stated: the registry is at capacity and the id
"0" already exists, yet registration fails with the capacity error and the
stores are untouched (so re-registering an existing id at capacity does NOT
succeed). -/
theorem C8_counterexample :
    (dictGet big_registry.intersections "0").isSome = true
    ∧ big_registry.intersections.length = MAX_INTERSECTIONS
    ∧ (register_intersection big_registry "0" none 0 0 none).2
      = Except.error "Max intersections reached"
    ∧ (register_intersection big_registry "0" none 0 0 none).1
      = big_registry := by
  refine ⟨?_, ?_, ?_, ?_⟩ <;> decide

/-- C10: the ETA estimator returns `none` for an absent, zero, negative, or
non-numeric speed, and performs the division `distance / speed` (returning
a defined ETA) exactly when the speed is a positive number. -/
theorem C10_eta_guard :
    (∀ d, estimate_eta_s d SpeedInput.absent = none)
    ∧ (∀ d, estimate_eta_s d (SpeedInput.num 0) = none)
    ∧ (∀ d x, x < 0 → estimate_eta_s d (SpeedInput.num x) = none)
    ∧ (∀ d, estimate_eta_s d SpeedInput.nonNumeric = none)
    ∧ (∀ d x, 0 < x → estimate_eta_s d (SpeedInput.num x) = some (d / x)) := by
  refine ⟨fun d => rfl, fun d => by simp [estimate_eta_s], ?_,
    fun d => rfl, ?_⟩
  · intro d x hx
    have hcond : ¬ (x ≠ 0 ∧ 0 < x) := fun h => absurd h.2 (not_lt.mpr hx.le)
    simp [estimate_eta_s, hcond]
  · intro d x hx
    have hcond : x ≠ 0 ∧ 0 < x := ⟨hx.ne', hx⟩
    simp [estimate_eta_s, hcond]

/-- Witness for C10: a positive speed of 4 over 100 m yields the ETA
100 / 4. -/
theorem C10_eta_guard_witness :
    estimate_eta_s 100 (SpeedInput.num 4) = some (100 / 4) :=
  C10_eta_guard.2.2.2.2 100 4 (by decide)
